import Mathlib

/-!
Verification development for the secure DOM manipulation library
(`src/secure-dom.js` and the structured-logger variant in `src/unnamed/part_002`).

The JavaScript code is shallowly embedded: strings are Lean `String`s,
JavaScript values that may fail the `typeof input !== 'string'` check are a
sum type `JSv`, DOM elements are records of tag name, attributes and
children, thrown errors are an `Err` inductive returned through `Except`,
and each operation returns its result together with the (possibly updated)
target element and the list of security-log actions it emitted, in order.
The URL allow-list regex is embedded as a regular-expression AST matched by
Brzozowski derivatives, mirroring the anchored `RegExp.test` semantics.
-/

namespace SecureDom

/-- `SecurityConfig.MAX_CONTENT_LENGTH` from the source. -/
def MAX_CONTENT_LENGTH : Nat := 5000

/-- `SecurityConfig.ALLOWED_TAGS` from the source. -/
def ALLOWED_TAGS : List String := ["b", "i", "em", "strong", "span", "p", "br", "div", "a"]

/-- `SecurityConfig.ALLOWED_ATTR` from the source.  Note that the code only
ever tests exact membership in this list. -/
def ALLOWED_ATTR : List String := ["class", "id", "data-*", "href", "target", "rel"]

/-- Regular expressions over characters, used to embed
`SecurityConfig.URL_PATTERN`. -/
inductive RE where
  | emp : RE
  | eps : RE
  | pred (p : Char → Bool) : RE
  | cat (r s : RE) : RE
  | alt (r s : RE) : RE
  | star (r : RE) : RE

/-- Does the regex accept the empty string? -/
def RE.nullable : RE → Bool
  | .emp => false
  | .eps => true
  | .pred _ => false
  | .cat r s => r.nullable && s.nullable
  | .alt r s => r.nullable || s.nullable
  | .star _ => true

/-- Smart concatenation (keeps derivatives small; preserves the language). -/
def RE.mkCat : RE → RE → RE
  | .emp, _ => .emp
  | _, .emp => .emp
  | .eps, s => s
  | r, .eps => r
  | r, s => .cat r s

/-- Smart alternation (keeps derivatives small; preserves the language). -/
def RE.mkAlt : RE → RE → RE
  | .emp, s => s
  | r, .emp => r
  | r, s => .alt r s

/-- Brzozowski derivative of a regex with respect to a character. -/
def RE.deriv (c : Char) : RE → RE
  | .emp => .emp
  | .eps => .emp
  | .pred p => if p c then .eps else .emp
  | .cat r s =>
    if r.nullable then .mkAlt (.mkCat (r.deriv c) s) (s.deriv c)
    else .mkCat (r.deriv c) s
  | .alt r s => .mkAlt (r.deriv c) (s.deriv c)
  | .star r => .mkCat (r.deriv c) (.star r)

/-- Full (anchored) match of a regex against a character list. -/
def RE.rmatch (r : RE) : List Char → Bool
  | [] => r.nullable
  | c :: cs => (r.deriv c).rmatch cs

/-- `\w` character class: `[A-Za-z0-9_]`. -/
def wordChar (c : Char) : Bool := c.isAlphanum || c == '_'

/-- `[\w.-]` character class. -/
def urlChar (c : Char) : Bool := wordChar c || c == '.' || c == '-'

/-- Regex matching a single given character. -/
def chR (c : Char) : RE := .pred (fun x => x == c)

/-- Regex matching a literal string. -/
def strR (s : String) : RE := s.data.foldr (fun c r => .cat (chR c) r) .eps

/-- `r?` -/
def optR (r : RE) : RE := .alt .eps r

/-- `r+` -/
def plusR (r : RE) : RE := .cat r (.star r)

/-- `SecurityConfig.URL_PATTERN`:
`^(?:https?:\/\/)?[\w.-]+\.[a-zA-Z]{2,}(?:\/[\w.-]*)*\/?$`. -/
def URL_PATTERN : RE :=
  .cat (optR (.cat (strR "http") (.cat (optR (chR 's')) (strR "://"))))
    (.cat (plusR (.pred urlChar))
      (.cat (chR '.')
        (.cat (.cat (.pred Char.isAlpha) (plusR (.pred Char.isAlpha)))
          (.cat (.star (.cat (chR '/') (.star (.pred urlChar))))
            (optR (chR '/'))))))

/-- `Validator.isValidUrl`: anchored test of the URL against `URL_PATTERN`. -/
def isValidUrl (url : String) : Bool := URL_PATTERN.rmatch url.data

/-- `String.prototype.toLowerCase` (character-wise lowercasing). -/
def jsToLower (s : String) : String := String.mk (s.data.map Char.toLower)

/-- Error kinds thrown by the library (each corresponds to one `throw` site;
`typeErr` models the secondary `TypeError` raised when a method is invoked
on a value that lacks it, and `refError` models a `ReferenceError` for the
undefined `markdownToHtml`). -/
inductive Err where
  | invalidTarget
  | invalidInput
  | inputTooLong
  | disallowedTag
  | sanitizerUnavailable
  | refError
  | typeErr
deriving DecidableEq

/-- A JavaScript value passed where a string is expected: either an actual
string or some non-string value (number, object, ...). -/
inductive JSv where
  | str (s : String)
  | other
deriving DecidableEq

/-- A child node of the target element: a text node, or an element created by
`createElement` (tag, attributes, text content). -/
inductive Child where
  | text (s : String)
  | elem (tag : String) (attrs : List (String × String)) (content : String)
deriving DecidableEq

/-- A live DOM element: tag name, attributes and list of children. -/
structure Element where
  tagName : String
  attributes : List (String × String)
  children : List Child
deriving DecidableEq

/-- The value passed as the target of an operation: a live `HTMLElement`, or
anything else (which fails the `instanceof HTMLElement` check). -/
inductive Tgt where
  | elem (e : Element)
  | nonElem
deriving DecidableEq

/-- `Validator.validateElement`: throws `invalidTarget` unless the value is a
live element. -/
def validateElement : Tgt → Except Err Element
  | .elem e => .ok e
  | .nonElem => .error .invalidTarget

/-- `Validator.validateInput`: throws `invalidInput` on a non-string and
`inputTooLong` when the length exceeds `MAX_CONTENT_LENGTH`. -/
def validateInput : JSv → Except Err String
  | .other => .error .invalidInput
  | .str s =>
    if s.length > MAX_CONTENT_LENGTH then .error .inputTooLong else .ok s

/-- `element.setAttribute`: replace the value of an existing attribute of the
same name, otherwise append the attribute. -/
def setAttr (attrs : List (String × String)) (k v : String) :
    List (String × String) :=
  if attrs.any (fun p => p.1 == k) then
    attrs.map (fun p => if p.1 == k then (k, v) else p)
  else
    attrs ++ [(k, v)]

/-- `setTextContent`: validate, then replace the element's children with a
single text node.  On failure the target is untouched and a
`setText-error` event is logged. -/
def setTextContent (tgt : Tgt) (content : JSv) :
    Except Err Unit × Tgt × List String :=
  match validateElement tgt with
  | .error er => (.error er, tgt, ["setText-error"])
  | .ok e =>
    match validateInput content with
    | .error er => (.error er, tgt, ["setText-error"])
    | .ok s => (.ok (), .elem { e with children := [.text s] }, [])

/-- `createSafeTextNode`: validate, then append a text node to the parent and
return it.  On failure a `createTextNode-error` event is logged. -/
def createSafeTextNode (tgt : Tgt) (content : JSv) :
    Except Err Child × Tgt × List String :=
  match validateElement tgt with
  | .error er => (.error er, tgt, ["createTextNode-error"])
  | .ok e =>
    match validateInput content with
    | .error er => (.error er, tgt, ["createTextNode-error"])
    | .ok s =>
      (.ok (.text s), .elem { e with children := e.children ++ [.text s] }, [])

/-- The `options` argument of `createElement` (`options.text`,
`options.attributes`). -/
structure CreateOpts where
  text : Option String := none
  attributes : Option (List (String × String)) := none

/-- The `Object.entries(options.attributes).forEach` loop of `createElement`:
a key is applied only when it is an exact member of `ALLOWED_ATTR`; an
`href` whose value fails `isValidUrl` is dropped with an `invalid-url`
event. -/
def applyAttributes :
    List (String × String) → List (String × String) → List String →
    List (String × String) × List String
  | [], attrs, log => (attrs, log)
  | (k, v) :: rest, attrs, log =>
    if ALLOWED_ATTR.contains k then
      if k == "href" && !(isValidUrl v) then
        applyAttributes rest attrs (log ++ ["invalid-url"])
      else
        applyAttributes rest (setAttr attrs k v) log
    else
      applyAttributes rest attrs log

/-- The success tail of `createElement`: apply the attribute loop, build the
new element and append it to the parent. -/
def createElementFinish (e : Element) (tagName : String) (txt : String)
    (opts : CreateOpts) : Except Err Child × Tgt × List String :=
  let al :=
    match opts.attributes with
    | some entries => applyAttributes entries [] []
    | none => ([], [])
  (.ok (.elem tagName al.1 txt),
    .elem { e with children := e.children ++ [.elem tagName al.1 txt] },
    al.2)

/-- `createElement`: validate the parent, reject a tag outside
`ALLOWED_TAGS` (case-insensitively), validate `options.text` when truthy,
apply the filtered attributes, then append the new element.  On failure the
parent is untouched and a `createElement-error` event is logged. -/
def createElement (tgt : Tgt) (tagName : String) (opts : CreateOpts) :
    Except Err Child × Tgt × List String :=
  match validateElement tgt with
  | .error er => (.error er, tgt, ["createElement-error"])
  | .ok e =>
    if !(ALLOWED_TAGS.contains (jsToLower tagName)) then
      (.error .disallowedTag, tgt, ["createElement-error"])
    else
      match opts.text with
      | some t =>
        if t = "" then createElementFinish e tagName "" opts
        else
          match validateInput (.str t) with
          | .error er => (.error er, tgt, ["createElement-error"])
          | .ok _ => createElementFinish e tagName t opts
      | none => createElementFinish e tagName "" opts

/-- The external `DOMPurify` capability: the fragment-returning and the
string-returning sanitize calls made by `setSanitizedHTML`. -/
structure Sanitizer where
  frag : String → List Child
  strS : String → String

/-- `setSanitizedHTML`: validate, fail hard when `DOMPurify` is absent,
otherwise log `content-sanitized` when the sanitized string differs from
the input, clear the target's children and attach the sanitized fragment.
On failure the target is untouched and a `setHTML-error` event is logged. -/
def setSanitizedHTML (san : Option Sanitizer) (tgt : Tgt) (html : JSv) :
    Except Err Unit × Tgt × List String :=
  match validateElement tgt with
  | .error er => (.error er, tgt, ["setHTML-error"])
  | .ok e =>
    match validateInput html with
    | .error er => (.error er, tgt, ["setHTML-error"])
    | .ok h =>
      match san with
      | none => (.error .sanitizerUnavailable, tgt, ["setHTML-error"])
      | some z =>
        let logs := if z.strS h ≠ h then ["content-sanitized"] else []
        (.ok (), .elem { e with children := z.frag h }, logs)

/-- The apostrophe character (code point 39). -/
def apos : Char := Char.ofNat 39

/-- The entity the apostrophe is replaced with: the six characters of the
numeric entity for code point 39, ending in a semicolon. -/
def aposEntity : List Char := ['&', '#', '0', '3', '9', ';']

/-- One `.replace(/c/g, rep)` pass: every occurrence of the single character
`c` is replaced by `rep`. -/
def substChar (c : Char) (rep : List Char) : List Char → List Char
  | [] => []
  | x :: xs => (if x = c then rep else [x]) ++ substChar c rep xs

/-- `escapeHtml` on character lists: the five sequential `.replace` passes of
the source, ampersand first. -/
def escapeHtmlL (l : List Char) : List Char :=
  substChar apos aposEntity
    (substChar '"' "&quot;".data
      (substChar '>' "&gt;".data
        (substChar '<' "&lt;".data
          (substChar '&' "&amp;".data l))))

/-- `escapeHtml` from the source. -/
def escapeHtml (s : String) : String := String.mk (escapeHtmlL s.data)

/-- The `options` argument of `renderRichContent`. -/
structure RenderOpts where
  plainText : Bool := false
  allowHtml : Bool := false
  markdown : Bool := false

/-- The `catch` block of `renderRichContent`: it builds its log payload with
`content.substring(0, 100)`, so when `content` is not a string this raises
a `TypeError` before `Logger.logSecurityEvent` runs, and no `render-error`
event is emitted for that failure. -/
def renderCatch (tgt : Tgt) (content : JSv) (er : Err) (logs : List String) :
    Except Err Unit × Tgt × List String :=
  match content with
  | .str _ => (.error er, tgt, logs ++ ["render-error"])
  | .other => (.error .typeErr, tgt, logs)

/-- `renderRichContent`: validate, dispatch on the options to one of the
rendering strategies, add `rel` on an `A` container, and log
`content-rendered` on success; failures go through `renderCatch`.  The
`markdown` branch calls the undefined `markdownToHtml` and therefore raises
a `ReferenceError`.  In the default branch the node returned by
`createSafeTextNode` is already the last child, so the second
`appendChild` moves it onto itself and changes nothing. -/
def renderRichContent (san : Option Sanitizer) (tgt : Tgt) (content : JSv)
    (opts : RenderOpts) : Except Err Unit × Tgt × List String :=
  match validateElement tgt with
  | .error er => renderCatch tgt content er []
  | .ok _ =>
    match validateInput content with
    | .error er => renderCatch tgt content er []
    | .ok s =>
      let step : Except Err Unit × Tgt × List String :=
        if opts.plainText then setTextContent tgt content
        else if opts.allowHtml then setSanitizedHTML san tgt content
        else if opts.markdown then (.error .refError, tgt, [])
        else
          match createSafeTextNode tgt (.str (escapeHtml s)) with
          | (.ok _, t, l) => (.ok (), t, l)
          | (.error er, t, l) => (.error er, t, l)
      match step with
      | (.error er, t, l) => renderCatch t content er l
      | (.ok _, t, l) =>
        let t' :=
          match t with
          | .elem e =>
            if e.tagName == "A" then
              Tgt.elem
                { e with
                  attributes := setAttr e.attributes "rel" "noopener noreferrer" }
            else t
          | .nonElem => t
        (.ok (), t', l ++ ["content-rendered"])

/-- Is the second list a (character) prefix of the first? -/
def listStartsWith : List Char → List Char → Bool
  | _, [] => true
  | [], _ :: _ => false
  | x :: xs, y :: ys => x == y && listStartsWith xs ys

/-- Modelled from the spec: the attribute matcher the spec describes for
`createChildElement` — an attribute key is allowed when it is an exact
member of the allow-list or matches a wildcard-suffixed entry such as
`data-*` (the entry ends in `*` and the key starts with the part before
the `*`).  This matcher does not appear in the code, which tests exact
membership only. -/
def attrAllowedSpec (key : String) : Bool :=
  ALLOWED_ATTR.contains key ||
    ALLOWED_ATTR.any
      (fun pat =>
        pat.data.getLast? == some '*' &&
          listStartsWith key.data pat.data.dropLast)

end SecureDom

namespace SecureLog

/-!
Model of the structured `Logger` of `src/unnamed/part_002`.  The `details`
argument survives `JSON.parse(JSON.stringify(...))`, so it is modelled as a
JSON value; objects and arrays are mutual inductives so that the recursive
redaction and truncation walks can be stated and proved by mutual
induction.
-/

mutual
/-- A JSON value (what `details` looks like after the round trip). -/
inductive JVal where
  | str (s : String) : JVal
  | num (n : Int) : JVal
  | bool (b : Bool) : JVal
  | null : JVal
  | obj (o : JObj) : JVal
  | arr (a : JArr) : JVal

/-- The ordered fields of a JSON object. -/
inductive JObj where
  | nil : JObj
  | cons (k : String) (v : JVal) (rest : JObj) : JObj

/-- The elements of a JSON array. -/
inductive JArr where
  | nil : JArr
  | cons (v : JVal) (rest : JArr) : JArr
end

/-- The `sensitiveKeys` list of `Logger._sanitizeLogData`. -/
def sensitiveKeys : List String := ["password", "token", "secret", "key"]

/-- The fixed redaction marker. -/
def REDACTED : String := "[REDACTED]"

/-- The string-length cap passed to `_recursivelyTruncateStrings`. -/
def TRUNCATE_CAP : Nat := 1000

/-- `obj[key] = obj[key].substring(0, maxLength) + '...'` applied when the
string exceeds the cap. -/
def truncStr (s : String) : String :=
  if s.length > TRUNCATE_CAP then s.take TRUNCATE_CAP ++ "..." else s

mutual
/-- `Logger._recursivelyRemoveSensitive` applied to a value that is itself a
property (or array element): only values of `typeof 'object'` are walked
into; the sensitive-key test happens at the object that owns the key. -/
def redactEntry : JVal → JVal
  | .obj o => .obj (redactObj o)
  | .arr a => .arr (redactArr a)
  | v => v

/-- The `for key in obj` walk of `_recursivelyRemoveSensitive` over an
object's fields: a key whose lowercasing is in `sensitiveKeys` has its
value replaced with the redaction marker, other object-typed values are
walked recursively. -/
def redactObj : JObj → JObj
  | .nil => .nil
  | .cons k v rest =>
    if sensitiveKeys.contains (SecureDom.jsToLower k) then
      .cons k (.str REDACTED) (redactObj rest)
    else
      .cons k (redactEntry v) (redactObj rest)

/-- The same walk over array elements (index keys are never sensitive). -/
def redactArr : JArr → JArr
  | .nil => .nil
  | .cons v rest => .cons (redactEntry v) (redactArr rest)
end

mutual
/-- `Logger._recursivelyTruncateStrings` applied to a property value: string
values above the cap are truncated, object-typed values are walked. -/
def truncEntry : JVal → JVal
  | .str s => .str (truncStr s)
  | .obj o => .obj (truncObj o)
  | .arr a => .arr (truncArr a)
  | v => v

/-- The `for key in obj` walk of `_recursivelyTruncateStrings` over an
object's fields. -/
def truncObj : JObj → JObj
  | .nil => .nil
  | .cons k v rest => .cons k (truncEntry v) (truncObj rest)

/-- The same walk over array elements. -/
def truncArr : JArr → JArr
  | .nil => .nil
  | .cons v rest => .cons (truncEntry v) (truncArr rest)
end

/-- `_recursivelyRemoveSensitive` at the top level: only an object (or
array) is walked; a primitive top-level value is returned unchanged. -/
def redactVal : JVal → JVal
  | .obj o => .obj (redactObj o)
  | .arr a => .arr (redactArr a)
  | v => v

/-- `_recursivelyTruncateStrings` at the top level: likewise, only an object
or array is walked, so a top-level primitive is never truncated. -/
def truncVal : JVal → JVal
  | .obj o => .obj (truncObj o)
  | .arr a => .arr (truncArr a)
  | v => v

/-- JavaScript falsiness of the `details` value (`if (!data) return {}`). -/
def isFalsy : JVal → Bool
  | .null => true
  | .bool b => !b
  | .num n => n == 0
  | .str s => s == ""
  | _ => false

/-- `Logger._sanitizeLogData`: deep-copy (the embedding is pure, so the copy
is implicit), then redact, then truncate; falsy input yields `{}`. -/
def sanitizeLogData (d : JVal) : JVal :=
  if isFalsy d then .obj .nil else truncVal (redactVal d)

/-- `Logger._getSessionId` state: the stored `window._logSessionId` (the
empty string standing for the falsy unset/empty cases) and the number of
generator draws made so far. -/
structure LoggerState where
  sessionId : String
  draws : Nat
deriving DecidableEq

/-- `Logger._getSessionId`: generate and store a fresh identifier when the
stored one is falsy, otherwise return the stored one.  `gen` models the
`Math.random().toString(36).substring(2, 15)` source, indexed by draw. -/
def getSessionId (gen : Nat → String) (st : LoggerState) :
    String × LoggerState :=
  if st.sessionId = "" then
    (gen st.draws, { sessionId := gen st.draws, draws := st.draws + 1 })
  else
    (st.sessionId, st)

/-- The emitted log payload of `_formatLogMessage` (the timestamp comes from
an external clock and is not modelled). -/
structure LogMessage where
  severity : String
  eventType : String
  data : JVal
  sessionId : String

/-- The values of the `LogEventType` enum. -/
def LogEventTypeValues : List String :=
  ["VALIDATION_ERROR", "CONTENT_SANITIZATION", "XSS_ATTEMPT",
   "DOM_MANIPULATION", "API_ERROR"]

/-- `Logger._formatLogMessage`. -/
def formatLogMessage (gen : Nat → String) (st : LoggerState)
    (severity eventType : String) (data : JVal) :
    LogMessage × LoggerState :=
  let sid := getSessionId gen st
  ({ severity := severity, eventType := eventType,
     data := sanitizeLogData data, sessionId := sid.1 }, sid.2)

/-- `Logger.logSecurityEvent`: unknown event types are normalized to
`SECURITY`, then the message is formatted (and emitted). -/
def logSecurityEvent (gen : Nat → String) (st : LoggerState)
    (eventType : String) (details : JVal) : LogMessage × LoggerState :=
  let et :=
    if LogEventTypeValues.contains eventType then eventType else "SECURITY"
  formatLogMessage gen st "SECURITY" et details

/-- A sequence of `logSecurityEvent` calls within one process, returning the
emitted messages in order and the final logger state. -/
def runLogger (gen : Nat → String) :
    List (String × JVal) → LoggerState → List LogMessage × LoggerState
  | [], st => ([], st)
  | (evt, d) :: rest, st =>
    let m := logSecurityEvent gen st evt d
    let ms := runLogger gen rest m.2
    (m.1 :: ms.1, ms.2)

mutual
/-- Modelled from the spec: the checker for the redaction/truncation
contract over an object's fields — the key is preserved; a key whose
lowercasing is in the sensitive list has the redaction marker as its
value; any other string value is truncated exactly when longer than the
cap (marker appended); other values are preserved, recursively. -/
def specObj : JObj → JObj → Bool
  | .nil, .nil => true
  | .cons k v rest, .cons k' v' rest' =>
    k == k' &&
      (if sensitiveKeys.contains (SecureDom.jsToLower k) then
        match v' with
        | .str t => t == REDACTED
        | _ => false
      else specEntry v v') &&
      specObj rest rest'
  | _, _ => false

/-- Modelled from the spec: the checker relating a non-sensitive property
value to its emitted form. -/
def specEntry : JVal → JVal → Bool
  | .str s, .str t => t == truncStr s
  | .obj o, .obj o' => specObj o o'
  | .arr a, .arr a' => specArr a a'
  | .num n, .num n' => n == n'
  | .bool b, .bool b' => b == b'
  | .null, .null => true
  | _, _ => false

/-- Modelled from the spec: the checker over array elements. -/
def specArr : JArr → JArr → Bool
  | .nil, .nil => true
  | .cons v rest, .cons v' rest' => specEntry v v' && specArr rest rest'
  | _, _ => false
end

/-- Modelled from the spec: the checker at the top of the `details` value. -/
def specVal : JVal → JVal → Bool
  | .obj o, .obj o' => specObj o o'
  | .arr a, .arr a' => specArr a a'
  | .str s, .str t => s == t
  | .num n, .num n' => n == n'
  | .bool b, .bool b' => b == b'
  | .null, .null => true
  | _, _ => false

end SecureLog

namespace SecureDom

/-- A concrete live element used to instantiate theorems. -/
def e0 : Element := { tagName := "DIV", attributes := [], children := [] }

/-- A concrete string of 5001 characters, one over `MAX_CONTENT_LENGTH`. -/
def longS : String := String.replicate 5001 'a'

/-- C1: the spec's wildcard matcher accepts `data-action` (it starts with
`data-` and `data-*` is in the allow-list), but `createElement` tests only
exact membership in `ALLOWED_ATTR`, so the `data-action` attribute is
silently dropped from the created element. -/
theorem claim1_data_wildcard_ignored_by_code :
    attrAllowedSpec "data-action" = true ∧
    createElement (.elem e0) "div"
        { text := none, attributes := some [("data-action", "save")] } =
      (.ok (.elem "div" [] ""),
        .elem { e0 with children := [.elem "div" [] ""] }, []) :=
  ⟨by decide, by rfl⟩

/-- C2: for any string longer than `MAX_CONTENT_LENGTH`, each rendering
operation fails with `inputTooLong`, leaves the target untouched, and
emits only its error log event. -/
theorem claim2_input_too_long_no_mutation
    (e : Element) (s : String) (hs : MAX_CONTENT_LENGTH < s.length)
    (tag : String) (htag : ALLOWED_TAGS.contains (jsToLower tag) = true)
    (attrs : Option (List (String × String))) (san : Option Sanitizer)
    (ropts : RenderOpts) :
    setTextContent (.elem e) (.str s) =
      (.error .inputTooLong, .elem e, ["setText-error"]) ∧
    createSafeTextNode (.elem e) (.str s) =
      (.error .inputTooLong, .elem e, ["createTextNode-error"]) ∧
    createElement (.elem e) tag { text := some s, attributes := attrs } =
      (.error .inputTooLong, .elem e, ["createElement-error"]) ∧
    setSanitizedHTML san (.elem e) (.str s) =
      (.error .inputTooLong, .elem e, ["setHTML-error"]) ∧
    renderRichContent san (.elem e) (.str s) ropts =
      (.error .inputTooLong, .elem e, ["render-error"]) := by
  have hv : validateInput (.str s) = .error .inputTooLong := by
    simp [validateInput, hs]
  have hne : s ≠ "" := by
    intro h
    rw [h] at hs
    simp [MAX_CONTENT_LENGTH] at hs
  have htag' : jsToLower tag ∈ ALLOWED_TAGS := by simpa using htag
  refine ⟨?_, ?_, ?_, ?_, ?_⟩
  · simp [setTextContent, validateElement, hv]
  · simp [createSafeTextNode, validateElement, hv]
  · simp [createElement, validateElement, htag', hne, hv]
  · simp [setSanitizedHTML, validateElement, hv]
  · simp [renderRichContent, validateElement, hv, renderCatch]

/-- Witness for C2 at a concrete 5001-character input. -/
theorem claim2_witness :
    setTextContent (.elem e0) (.str longS) =
      (.error .inputTooLong, .elem e0, ["setText-error"]) ∧
    createSafeTextNode (.elem e0) (.str longS) =
      (.error .inputTooLong, .elem e0, ["createTextNode-error"]) ∧
    createElement (.elem e0) "div" { text := some longS, attributes := none } =
      (.error .inputTooLong, .elem e0, ["createElement-error"]) ∧
    setSanitizedHTML none (.elem e0) (.str longS) =
      (.error .inputTooLong, .elem e0, ["setHTML-error"]) ∧
    renderRichContent none (.elem e0) (.str longS) ⟨false, false, false⟩ =
      (.error .inputTooLong, .elem e0, ["render-error"]) :=
  claim2_input_too_long_no_mutation e0 longS
    (by simp [longS, MAX_CONTENT_LENGTH])
    "div" (by decide) none none ⟨false, false, false⟩

/-- C4: a tag that is not a case-insensitive member of `ALLOWED_TAGS` makes
`createElement` fail with `disallowedTag`, leaving the parent untouched. -/
theorem claim4_disallowed_tag (e : Element) (tag : String) (opts : CreateOpts)
    (h : ALLOWED_TAGS.contains (jsToLower tag) = false) :
    createElement (.elem e) tag opts =
      (.error .disallowedTag, .elem e, ["createElement-error"]) := by
  have h' : jsToLower tag ∉ ALLOWED_TAGS := by simpa using h
  simp [createElement, validateElement, h']

/-- Witness for C4 at the tag `script`. -/
theorem claim4_witness :
    createElement (.elem e0) "script" {} =
      (.error .disallowedTag, .elem e0, ["createElement-error"]) :=
  claim4_disallowed_tag e0 "script" {} (by decide)

/-- C5: with the sanitizer capability absent, `setSanitizedHTML` always
fails and never mutates the target; when the target and input are valid
the error is specifically `sanitizerUnavailable`. -/
theorem claim5_sanitizer_unavailable (tgt : Tgt) (html : JSv) :
    (∃ er, setSanitizedHTML none tgt html = (.error er, tgt, ["setHTML-error"])) ∧
    (∀ (e : Element) (s : String), s.length ≤ MAX_CONTENT_LENGTH →
      setSanitizedHTML none (.elem e) (.str s) =
        (.error .sanitizerUnavailable, .elem e, ["setHTML-error"])) := by
  constructor
  · cases tgt with
    | nonElem => exact ⟨.invalidTarget, rfl⟩
    | elem e =>
      cases html with
      | other => exact ⟨.invalidInput, rfl⟩
      | str s =>
        by_cases h : s.length > MAX_CONTENT_LENGTH
        · exact ⟨.inputTooLong, by simp [setSanitizedHTML, validateElement, validateInput, h]⟩
        · exact ⟨.sanitizerUnavailable, by simp [setSanitizedHTML, validateElement, validateInput, h]⟩
  · intro e s h
    have h' : ¬ (s.length > MAX_CONTENT_LENGTH) := by omega
    simp [setSanitizedHTML, validateElement, validateInput, h']

/-- Witness for C5 at a concrete valid element and short input. -/
theorem claim5_witness :
    setSanitizedHTML none (.elem e0) (.str "hi") =
      (.error .sanitizerUnavailable, .elem e0, ["setHTML-error"]) :=
  (claim5_sanitizer_unavailable (.elem e0) (.str "hi")).2 e0 "hi" (by decide)

/-- C7: `renderRichContent` called with a valid container and a non-string
content fails (the catch block itself raises a `TypeError` from
`content.substring`), and the emitted log list is empty — the failure is
surfaced to the caller without any Logger call. -/
theorem claim7_unlogged_failure :
    renderRichContent none (.elem e0) .other ⟨false, false, false⟩ =
      (.error .typeErr, .elem e0, ([] : List String)) := rfl

/-- C10: an exactly allow-listed, non-`href` attribute key is applied with
its value verbatim, with no validation of the value at all (the value is
universally quantified, so in particular it may exceed
`MAX_CONTENT_LENGTH`). -/
theorem claim10_attr_value_unvalidated (e : Element) (tag k v : String)
    (htag : ALLOWED_TAGS.contains (jsToLower tag) = true)
    (hk : ALLOWED_ATTR.contains k = true) (hkh : k ≠ "href") :
    createElement (.elem e) tag { text := none, attributes := some [(k, v)] } =
      (.ok (.elem tag [(k, v)] ""),
        .elem { e with children := e.children ++ [.elem tag [(k, v)] ""] },
        []) := by
  have hbeq : (k == "href") = false := by simp [hkh]
  have htag' : jsToLower tag ∈ ALLOWED_TAGS := by simpa using htag
  have hk' : k ∈ ALLOWED_ATTR := by simpa using hk
  simp [createElement, validateElement, htag', createElementFinish,
    applyAttributes, hk', hbeq, setAttr]

/-- Witness for C10: a `class` attribute whose value has 5001 characters is
applied verbatim. -/
theorem claim10_witness :
    createElement (.elem e0) "div"
        { text := none, attributes := some [("class", longS)] } =
      (.ok (.elem "div" [("class", longS)] ""),
        .elem { e0 with children := [.elem "div" [("class", longS)] ""] },
        []) := by
  have h := claim10_attr_value_unvalidated e0 "div" "class" longS
    (by decide) (by decide) (by decide)
  simpa [e0] using h

/-- The keys present after a `setAttr` are the old keys plus possibly the
new key. -/
theorem mem_keys_setAttr {x k v : String} {attrs : List (String × String)}
    (hx : x ∈ (setAttr attrs k v).map Prod.fst) :
    x = k ∨ x ∈ attrs.map Prod.fst := by
  unfold setAttr at hx
  split at hx
  · rw [List.map_map] at hx
    rcases List.mem_map.1 hx with ⟨p, hp, hpx⟩
    by_cases hpk : (p.1 == k) = true
    · left
      simp only [Function.comp_apply, if_pos hpk] at hpx
      exact hpx.symm
    · right
      simp only [Function.comp_apply, if_neg hpk] at hpx
      exact hpx ▸ List.mem_map_of_mem Prod.fst hp
  · rw [List.map_append] at hx
    rcases List.mem_append.1 hx with h | h
    · right
      exact h
    · left
      simpa using h

/-- The attribute loop only ever appends to the running log. -/
theorem applyAttributes_log_grows :
    ∀ (entries attrs : List (String × String)) (log : List String),
      ∃ extra, (applyAttributes entries attrs log).2 = log ++ extra
  | [], attrs, log => ⟨[], by simp [applyAttributes]⟩
  | (k, v) :: rest, attrs, log => by
    unfold applyAttributes
    split
    · split
      · rcases applyAttributes_log_grows rest attrs (log ++ ["invalid-url"]) with ⟨ex, hex⟩
        exact ⟨"invalid-url" :: ex, by rw [hex]; simp⟩
      · exact applyAttributes_log_grows rest (setAttr attrs k v) log
    · exact applyAttributes_log_grows rest attrs log

/-- An `href` entry whose value fails `isValidUrl` makes the attribute loop
emit an `invalid-url` event. -/
theorem applyAttributes_href_logged :
    ∀ (entries attrs : List (String × String)) (log : List String) (v : String),
      ("href", v) ∈ entries → isValidUrl v = false →
      "invalid-url" ∈ (applyAttributes entries attrs log).2
  | [], _, _, _, hmem, _ => absurd hmem (List.not_mem_nil _)
  | (k0, v0) :: rest, attrs, log, v, hmem, hinv => by
    rcases List.mem_cons.1 hmem with heq | htail
    · obtain ⟨hk, hv⟩ : "href" = k0 ∧ v = v0 := by simpa using heq
      subst hk
      subst hv
      have h1 : "href" ∈ ALLOWED_ATTR := by decide
      rw [show applyAttributes (("href", v) :: rest) attrs log =
          applyAttributes rest attrs (log ++ ["invalid-url"]) by
        simp [applyAttributes, h1, hinv]]
      rcases applyAttributes_log_grows rest attrs (log ++ ["invalid-url"]) with ⟨ex, hex⟩
      rw [hex]
      simp
    · unfold applyAttributes
      split
      · split
        · exact applyAttributes_href_logged rest attrs (log ++ ["invalid-url"]) v htail hinv
        · exact applyAttributes_href_logged rest (setAttr attrs k0 v0) log v htail hinv
      · exact applyAttributes_href_logged rest attrs log v htail hinv

/-- When every `href` entry in the list has an invalid URL, the attribute
loop never produces an `href` attribute. -/
theorem applyAttributes_no_href :
    ∀ (entries attrs : List (String × String)) (log : List String),
      (∀ w, ("href", w) ∈ entries → isValidUrl w = false) →
      "href" ∉ attrs.map Prod.fst →
      "href" ∉ (applyAttributes entries attrs log).1.map Prod.fst
  | [], attrs, log, _, hna => by simpa [applyAttributes] using hna
  | (k0, v0) :: rest, attrs, log, hall, hna => by
    have hall' : ∀ w, ("href", w) ∈ rest → isValidUrl w = false :=
      fun w hw => hall w (List.mem_cons_of_mem _ hw)
    by_cases hc : k0 ∈ ALLOWED_ATTR
    · by_cases hh : k0 = "href" ∧ isValidUrl v0 = false
      · have hhref : "href" ∈ ALLOWED_ATTR := by decide
        rw [show applyAttributes ((k0, v0) :: rest) attrs log =
            applyAttributes rest attrs (log ++ ["invalid-url"]) by
          simp [applyAttributes, hc, hh, hhref]]
        exact applyAttributes_no_href rest attrs _ hall' hna
      · have hk0 : k0 ≠ "href" := by
          intro h
          subst h
          exact hh ⟨rfl, hall v0 (List.mem_cons_self _ _)⟩
        have hna' : "href" ∉ (setAttr attrs k0 v0).map Prod.fst := by
          intro hmem
          rcases mem_keys_setAttr hmem with h | h
          · exact hk0 h.symm
          · exact hna h
        rw [show applyAttributes ((k0, v0) :: rest) attrs log =
            applyAttributes rest (setAttr attrs k0 v0) log by
          simp [applyAttributes, hc, hh]]
        exact applyAttributes_no_href rest (setAttr attrs k0 v0) log hall' hna'
    · rw [show applyAttributes ((k0, v0) :: rest) attrs log =
          applyAttributes rest attrs log by
        simp [applyAttributes, hc]]
      exact applyAttributes_no_href rest attrs log hall' hna

/-- C3: with an allowed tag and an attribute map whose `href` value fails
`isValidUrl`, the element is still created and appended, the resulting
element carries no `href` attribute, and an `invalid-url` event is
emitted. -/
theorem claim3_invalid_href_dropped (e : Element) (tag : String)
    (entries : List (String × String)) (v : String)
    (htag : ALLOWED_TAGS.contains (jsToLower tag) = true)
    (hmem : ("href", v) ∈ entries)
    (hall : ∀ w, ("href", w) ∈ entries → isValidUrl w = false) :
    ∃ (al : List (String × String)) (logs : List String),
      createElement (.elem e) tag { text := none, attributes := some entries } =
        (.ok (.elem tag al ""),
          .elem { e with children := e.children ++ [.elem tag al ""] }, logs) ∧
      "href" ∉ al.map Prod.fst ∧ "invalid-url" ∈ logs := by
  have htag' : jsToLower tag ∈ ALLOWED_TAGS := by simpa using htag
  refine ⟨(applyAttributes entries [] []).1, (applyAttributes entries [] []).2,
    ?_, ?_, ?_⟩
  · simp [createElement, validateElement, htag', createElementFinish]
  · exact applyAttributes_no_href entries [] [] hall (by simp)
  · exact applyAttributes_href_logged entries [] [] v hmem (hall v hmem)

/-- Witness for C3 at `href = "javascript:alert(1)"`. -/
theorem claim3_witness :
    ∃ (al : List (String × String)) (logs : List String),
      createElement (.elem e0) "a"
          { text := none, attributes := some [("href", "javascript:alert(1)")] } =
        (.ok (.elem "a" al ""),
          .elem { e0 with children := e0.children ++ [.elem "a" al ""] }, logs) ∧
      "href" ∉ al.map Prod.fst ∧ "invalid-url" ∈ logs :=
  claim3_invalid_href_dropped e0 "a" [("href", "javascript:alert(1)")]
    "javascript:alert(1)" (by decide) (by simp)
    (fun w hw => by
      simp only [List.mem_singleton, Prod.mk.injEq] at hw
      rw [hw.2]
      decide)

/-- A replacement pass with a non-empty replacement never shortens the
list. -/
theorem substChar_length_ge (c : Char) (rep : List Char) (hrep : rep ≠ []) :
    ∀ l : List Char, l.length ≤ (substChar c rep l).length
  | [] => by simp [substChar]
  | x :: xs => by
    have ih := substChar_length_ge c rep hrep xs
    have hr : 1 ≤ rep.length := List.length_pos.mpr hrep
    by_cases h : x = c
    · simp only [substChar, if_pos h, List.length_append, List.length_cons]
      omega
    · simp only [substChar, if_neg h, List.length_append, List.length_cons]
      omega

/-- A replacement pass with a replacement of at least two characters
strictly lengthens any list containing the replaced character. -/
theorem substChar_length_lt (c : Char) (rep : List Char) (hrep : 2 ≤ rep.length) :
    ∀ l : List Char, c ∈ l → l.length < (substChar c rep l).length
  | x :: xs, hmem => by
    have hne : rep ≠ [] := by
      intro h
      rw [h] at hrep
      simp at hrep
    have hge := substChar_length_ge c rep hne xs
    rcases List.mem_cons.1 hmem with heq | htail
    · simp only [substChar, if_pos heq.symm, List.length_append, List.length_cons]
      omega
    · have ihl := substChar_length_lt c rep hrep xs htail
      by_cases h : x = c
      · simp only [substChar, if_pos h, List.length_append, List.length_cons]
        omega
      · simp only [substChar, if_neg h, List.length_append, List.length_cons]
        omega

/-- A character different from the replaced one survives a replacement
pass. -/
theorem mem_substChar_of_ne {x c : Char} (rep : List Char) :
    ∀ l : List Char, x ∈ l → x ≠ c → x ∈ substChar c rep l
  | y :: ys, hmem, hne => by
    rcases List.mem_cons.1 hmem with heq | htail
    · subst heq
      simp only [substChar, if_neg hne]
      exact List.mem_append_left _ (List.mem_singleton.mpr rfl)
    · have ih := mem_substChar_of_ne rep ys htail hne
      exact List.mem_append_right _ ih

/-- Every character of the replacement appears after a replacement pass over
a list containing the replaced character. -/
theorem mem_substChar_of_rep {c y : Char} {rep : List Char} (hy : y ∈ rep) :
    ∀ l : List Char, c ∈ l → y ∈ substChar c rep l
  | x :: xs, hmem => by
    rcases List.mem_cons.1 hmem with heq | htail
    · simp only [substChar, if_pos heq.symm]
      exact List.mem_append_left _ hy
    · exact List.mem_append_right _ (mem_substChar_of_rep hy xs htail)

/-- An ampersand in the input leaves an ampersand in the escaped output
(the one of `&amp;`). -/
theorem escapeHtmlL_amp_mem {l : List Char} (h : '&' ∈ l) :
    '&' ∈ escapeHtmlL l := by
  unfold escapeHtmlL
  apply mem_substChar_of_ne _ _ ?_ (by decide)
  apply mem_substChar_of_ne _ _ ?_ (by decide)
  apply mem_substChar_of_ne _ _ ?_ (by decide)
  apply mem_substChar_of_ne _ _ ?_ (by decide)
  exact mem_substChar_of_rep (by decide) l h

/-- Escaping strictly lengthens any input containing an ampersand. -/
theorem escapeHtmlL_length_lt {l : List Char} (h : '&' ∈ l) :
    l.length < (escapeHtmlL l).length := by
  unfold escapeHtmlL
  have h1 : l.length < (substChar '&' "&amp;".data l).length :=
    substChar_length_lt _ _ (by decide) l h
  have h2 := substChar_length_ge '<' "&lt;".data (by decide)
    (substChar '&' "&amp;".data l)
  have h3 := substChar_length_ge '>' "&gt;".data (by decide)
    (substChar '<' "&lt;".data (substChar '&' "&amp;".data l))
  have h4 := substChar_length_ge '"' "&quot;".data (by decide)
    (substChar '>' "&gt;".data
      (substChar '<' "&lt;".data (substChar '&' "&amp;".data l)))
  have h5 := substChar_length_ge apos aposEntity (by decide)
    (substChar '"' "&quot;".data
      (substChar '>' "&gt;".data
        (substChar '<' "&lt;".data (substChar '&' "&amp;".data l))))
  omega

/-- C6: `escapeHtml` maps each special character to its entity with the
ampersand pass applied first (so no entity is double-escaped within one
application), and escaping is not idempotent: any input containing an
ampersand escapes differently the second time. -/
theorem claim6_escape_amp_first_not_idempotent :
    (escapeHtml "&" = "&amp;" ∧ escapeHtml "<" = "&lt;" ∧
      escapeHtml ">" = "&gt;" ∧ escapeHtml "\"" = "&quot;" ∧
      escapeHtml (String.mk [apos]) = String.mk aposEntity) ∧
    ∀ s : String, '&' ∈ s.data → escapeHtml (escapeHtml s) ≠ escapeHtml s := by
  constructor
  · exact ⟨by decide, by decide, by decide, by decide, by decide⟩
  · intro s hmem heq
    have h1 : '&' ∈ (escapeHtml s).data := escapeHtmlL_amp_mem hmem
    have h2 : (escapeHtml s).data.length < (escapeHtml (escapeHtml s)).data.length :=
      escapeHtmlL_length_lt h1
    rw [heq] at h2
    exact lt_irrefl _ h2

/-- Witness for C6 at the input `&x`. -/
theorem claim6_witness :
    '&' ∈ ("&x" : String).data ∧
      escapeHtml (escapeHtml "&x") ≠ escapeHtml "&x" :=
  ⟨by decide, claim6_escape_amp_first_not_idempotent.2 "&x" (by decide)⟩

end SecureDom

namespace SecureLog

mutual
/-- Redaction followed by truncation satisfies the spec checker on every
object. -/
theorem specObj_sound : ∀ o : JObj, specObj o (truncObj (redactObj o)) = true
  | .nil => rfl
  | .cons k v rest => by
    by_cases h : SecureDom.jsToLower k ∈ sensitiveKeys
    · have hr : truncStr REDACTED = REDACTED := by decide
      simp [redactObj, truncObj, specObj, h, truncEntry, hr, specObj_sound rest]
    · simp [redactObj, truncObj, specObj, h, specEntry_sound v,
        specObj_sound rest]

/-- Redaction followed by truncation satisfies the spec checker on every
property value. -/
theorem specEntry_sound : ∀ v : JVal, specEntry v (truncEntry (redactEntry v)) = true
  | .str s => by simp [redactEntry, truncEntry, specEntry]
  | .num n => by simp [redactEntry, truncEntry, specEntry]
  | .bool b => by simp [redactEntry, truncEntry, specEntry]
  | .null => rfl
  | .obj o => by simpa [redactEntry, truncEntry, specEntry] using specObj_sound o
  | .arr a => by simpa [redactEntry, truncEntry, specEntry] using specArr_sound a

/-- Redaction followed by truncation satisfies the spec checker on every
array. -/
theorem specArr_sound : ∀ a : JArr, specArr a (truncArr (redactArr a)) = true
  | .nil => rfl
  | .cons v rest => by
    simp [redactArr, truncArr, specArr, specEntry_sound v, specArr_sound rest]
end

/-- C8: for every details object passed to `logSecurityEvent`, the emitted
payload satisfies the redaction/truncation checker against the original:
sensitive keys carry the redaction marker, over-cap strings are truncated
with the marker appended, and everything else (keys, order, other values)
is preserved; the original value is untouched (the model is pure, matching
the deep copy). -/
theorem claim8_log_redaction_truncation (gen : Nat → String)
    (st : LoggerState) (evt : String) (o : JObj) :
    specVal (.obj o) ((logSecurityEvent gen st evt (.obj o)).1.data) = true := by
  have hdata : (logSecurityEvent gen st evt (.obj o)).1.data =
      .obj (truncObj (redactObj o)) := rfl
  rw [hdata]
  show specObj o (truncObj (redactObj o)) = true
  exact specObj_sound o

/-- From any state whose stored session identifier is truthy, further
logging calls reuse it and leave the logger state unchanged. -/
theorem runLogger_stable (gen : Nat → String) :
    ∀ (calls : List (String × JVal)) (st : LoggerState), st.sessionId ≠ "" →
      (∀ m ∈ (runLogger gen calls st).1, m.sessionId = st.sessionId) ∧
        (runLogger gen calls st).2 = st
  | [], st, h => by simp [runLogger]
  | (evt, d) :: rest, st, h => by
    have hm : (logSecurityEvent gen st evt d).1.sessionId = st.sessionId := by
      simp [logSecurityEvent, formatLogMessage, getSessionId, h]
    have hst : (logSecurityEvent gen st evt d).2 = st := by
      simp [logSecurityEvent, formatLogMessage, getSessionId, h]
    have ih := runLogger_stable gen rest st h
    have hrun : runLogger gen ((evt, d) :: rest) st =
        ((logSecurityEvent gen st evt d).1 ::
          (runLogger gen rest (logSecurityEvent gen st evt d).2).1,
         (runLogger gen rest (logSecurityEvent gen st evt d).2).2) := rfl
    rw [hrun, hst]
    constructor
    · intro m hmem
      rcases List.mem_cons.1 hmem with hh | hh
      · rw [hh, hm]
      · exact ih.1 m hh
    · exact ih.2

/-- C9: with a generator that only produces truthy identifiers, a whole
process run from the uninitialized state draws the generator at most once,
and every emitted message carries the identifier generated on the first
logging call. -/
theorem claim9_session_id_once (gen : Nat → String) (hgen : ∀ n, gen n ≠ "")
    (calls : List (String × JVal)) :
    (∀ m ∈ (runLogger gen calls ⟨"", 0⟩).1, m.sessionId = gen 0) ∧
      (runLogger gen calls ⟨"", 0⟩).2.draws ≤ 1 := by
  cases calls with
  | nil => simp [runLogger]
  | cons c rest =>
    obtain ⟨evt, d⟩ := c
    have hm : (logSecurityEvent gen (⟨"", 0⟩ : LoggerState) evt d).1.sessionId =
        gen 0 := by
      simp [logSecurityEvent, formatLogMessage, getSessionId]
    have hst : (logSecurityEvent gen (⟨"", 0⟩ : LoggerState) evt d).2 =
        ⟨gen 0, 1⟩ := by
      simp [logSecurityEvent, formatLogMessage, getSessionId]
    have hs := runLogger_stable gen rest ⟨gen 0, 1⟩ (hgen 0)
    have hrun : runLogger gen ((evt, d) :: rest) ⟨"", 0⟩ =
        ((logSecurityEvent gen ⟨"", 0⟩ evt d).1 ::
          (runLogger gen rest (logSecurityEvent gen ⟨"", 0⟩ evt d).2).1,
         (runLogger gen rest (logSecurityEvent gen ⟨"", 0⟩ evt d).2).2) := rfl
    rw [hrun, hst]
    constructor
    · intro m hmem
      rcases List.mem_cons.1 hmem with hh | hh
      · rw [hh]
        exact hm
      · exact hs.1 m hh
    · rw [hs.2]

/-- Witness for C9: a concrete two-call run with a constant truthy
generator. -/
theorem claim9_witness :
    ((runLogger (fun _ => "sid") [("A", JVal.null), ("B", JVal.null)]
        ⟨"", 0⟩).1.all (fun m => m.sessionId == "sid")) = true ∧
      (runLogger (fun _ => "sid") [("A", JVal.null), ("B", JVal.null)]
        ⟨"", 0⟩).2.draws ≤ 1 := by
  have h := claim9_session_id_once (fun _ => "sid") (fun n => by simp)
    [("A", JVal.null), ("B", JVal.null)]
  refine ⟨?_, h.2⟩
  rw [List.all_eq_true]
  intro m hm
  have hsid := h.1 m hm
  simp [hsid]

end SecureLog
